import Mathlib

/-!
Shallow embedding of `vite-plugin-lucky` (src/index.ts), a Vite plugin that
bridges the Lucky framework's shared JSON configuration into a Vite build
configuration.  Filesystem reads, JSON parsing and WHATWG-URL parsing are the
plugin's external collaborators; the filesystem and the JSON parser are passed
in as explicit function parameters, and the URL constructor is modelled for
origin-shaped http(s) URIs.
-/

namespace VitePluginLucky

/-! ## JSON values (result of `JSON.parse`) -/

/-- A parsed JSON value.  Numbers are restricted to integers, which covers
every numeric field of the shared config (ports). -/
inductive Json where
  | null : Json
  | bool : Bool → Json
  | num : Int → Json
  | str : String → Json
  | arr : List Json → Json
  | obj : List (String × Json) → Json

/-! ## ConfigLoader (`loadConfig`, src/index.ts lines 65-77) -/

/-- The fixed default mapping that `loadConfig` passes to `Object.assign` as
the target object, in source order. -/
def defaultsJson : List (String × Json) :=
  [("outDir", Json.str "public"),
   ("entry", Json.str "entry"),
   ("host", Json.str "127.0.0.1"),
   ("port", Json.num 3010),
   ("root", Json.str "src/js"),
   ("aliases", Json.arr [Json.str "js", Json.str "css", Json.str "images", Json.str "fonts"])]

/-- Set key `k` to `v` in an association list, replacing the first binding of
`k` in place (a JS object assignment `target[k] = v`). -/
def setKey : List (String × Json) → String → Json → List (String × Json)
  | [], k, v => [(k, v)]
  | (k', v') :: rest, k, v =>
      if k' = k then (k, v) :: rest else (k', v') :: setKey rest k v

/-- `Object.assign target source`: copy every own enumerable property of
`source` onto `target` in order, later assignments overriding earlier ones. -/
def objectAssign (target : List (String × Json)) : List (String × Json) → List (String × Json)
  | [] => target
  | (k, v) :: rest => objectAssign (setKey target k v) rest

/-- The own enumerable properties that `Object.assign` copies from a parsed
JSON value: an object contributes its fields; an array contributes indexed
properties; a string contributes indexed one-character properties; `null`,
booleans and numbers contribute nothing. -/
def ownEnumerableFields : Json → List (String × Json)
  | Json.obj fs => fs
  | Json.arr xs => (xs.enum).map (fun p => (toString p.1, p.2))
  | Json.str s => (s.toList.enum).map (fun p => (toString p.1, Json.str (String.singleton p.2)))
  | _ => []

/-- Error taxonomy for loading the shared config file. -/
inductive ConfigError where
  | fileNotFoundError : ConfigError
  | parseError : ConfigError
deriving DecidableEq, Repr

/-- `loadConfig`: read the file at `configPath` (the filesystem is modelled by
`fs`, mapping a path to its content when the file exists), parse it as JSON
(`parse` models `JSON.parse`, `none` meaning a thrown `SyntaxError`), and
shallow-merge the parsed value over the fixed defaults with `Object.assign`. -/
def loadConfig (fs : String → Option String) (parse : String → Option Json)
    (configPath : String) : Except ConfigError (List (String × Json)) :=
  match fs configPath with
  | none => Except.error ConfigError.fileNotFoundError
  | some text =>
      match parse text with
      | none => Except.error ConfigError.parseError
      | some j => Except.ok (objectAssign defaultsJson (ownEnumerableFields j))

/-! ## AliasResolver (`resolveAliases`, src/index.ts lines 85-90) -/

/-- One Vite alias entry, `{ find, replacement }`. -/
structure AliasEntry where
  find : String
  replacement : String
deriving DecidableEq, Repr

/-- `path.resolve(base, rel)` for an absolute `base` and a relative `rel`
without `.`/`..` segments — the only form the plugin uses. -/
def pathResolve (base rel : String) : String := base ++ "/" ++ rel

/-- `resolveAliases`: map each short directory name to a Vite alias entry,
`@<name>` as the symbolic key and `resolve(LUCKY_ROOT, "src/<name>")` as the
target.  `luckyRoot` is the process working directory (`process.cwd()`);
`dirs = none` models an absent `aliases` field, taking the `[]` default. -/
def resolveAliases (luckyRoot : String) (dirs : Option (List String)) : List AliasEntry :=
  (dirs.getD []).map (fun a =>
    { find := "@" ++ a, replacement := pathResolve luckyRoot ("src/" ++ a) })

/-! ## ServerConfigBuilder (`configureServer`, src/index.ts lines 98-112) -/

/-- The `host` field of the shared config may hold a string or a boolean. -/
inductive HostVal where
  | str : String → HostVal
  | bool : Bool → HostVal
deriving DecidableEq, Repr

/-- The `port` field of the shared config may hold a number or a string. -/
inductive PortVal where
  | num : Int → PortVal
  | str : String → PortVal
deriving DecidableEq, Repr

/-- JS template-literal interpolation of a port value (`${port}`). -/
def portString : Option PortVal → String
  | some (PortVal.num n) => toString n
  | some (PortVal.str s) => s
  | none => "undefined"

/-- JS template-literal interpolation of the host after the boolean check
replaced any boolean by `"0.0.0.0"`. -/
def hostString : Option String → String
  | some s => s
  | none => "undefined"

/-- The fields of the merged config that `configureServer` destructures. -/
structure ServerInput where
  https : Option Bool
  host : Option HostVal
  port : Option PortVal
  origin : Option String
deriving DecidableEq, Repr

/-- What the WHATWG `URL` constructor exposes of a parsed URI: the scheme
(with trailing colon), hostname and port. -/
structure URLParts where
  protocol : String
  hostname : String
  port : String
deriving DecidableEq, Repr

/-- Model of `new URL(s)` restricted to the origin-shaped http(s) URIs the
plugin synthesizes or receives: `scheme "://" hostname [":" port]`.  A
default port (80 for http, 443 for https) is normalized away, as the URL
class does; `none` models a thrown `TypeError` (malformed URI). -/
def parseURL (s : String) : Option URLParts :=
  let cs := s.toList
  let scheme := cs.takeWhile (fun c => c ≠ ':')
  if scheme = "http".toList ∨ scheme = "https".toList then
    match cs.dropWhile (fun c => c ≠ ':') with
    | ':' :: '/' :: '/' :: hostport =>
        let h := hostport.takeWhile (fun c => c ≠ ':')
        let schemeStr := String.mk scheme ++ ":"
        match hostport.dropWhile (fun c => c ≠ ':') with
        | [] => if h = [] then none else some ⟨schemeStr, String.mk h, ""⟩
        | ':' :: p =>
            if h = [] ∨ p = [] ∨ ¬ (p.all Char.isDigit) then none
            else if (scheme = "http".toList ∧ p = ['8', '0']) ∨
                    (scheme = "https".toList ∧ p = ['4', '4', '3']) then
              some ⟨schemeStr, String.mk h, ""⟩
            else some ⟨schemeStr, String.mk h, String.mk p⟩
        | _ => none
    | _ => none
  else none

/-- The object returned by `configureServer`. -/
structure ServerConfig where
  origin : String
  host : String
  port : String
  https : Bool
deriving DecidableEq, Repr

/-- The synthesized origin string from the template literal
`http${https ? "s" : ""}://${host}:${port}`. -/
def synthOrigin (https : Bool) (host port : String) : String :=
  "http" ++ (if https then "s" else "") ++ "://" ++ host ++ ":" ++ port

/-- The statement `if (typeof host === "boolean") host = "0.0.0.0"`: any
boolean host (true or false alike) is replaced by the bind-all address. -/
def resolveHost : Option HostVal → Option String
  | some (HostVal.bool _) => some "0.0.0.0"
  | some (HostVal.str s) => some s
  | none => none

/-- `configureServer`: destructure `{ https = false, host, port, origin }`,
replace a boolean `host` by `"0.0.0.0"`, synthesize the origin when `origin`
is falsy (`origin ||= ...`, so absent or empty), parse it as a URL and return
the origin together with the parsed hostname, port and secure flag.  `none`
models the `TypeError` thrown by `new URL` on a malformed origin. -/
def configureServer (c : ServerInput) : Option ServerConfig :=
  let https := c.https.getD false
  let host : Option String := resolveHost c.host
  let origin : String :=
    match c.origin with
    | some s => if s = "" then synthOrigin https (hostString host) (portString c.port) else s
    | none => synthOrigin https (hostString host) (portString c.port)
  match parseURL origin with
  | none => none
  | some uri =>
      some { origin := origin
             host := uri.hostname
             port := uri.port
             https := uri.protocol = "https:" }

/-! ## AssetPathPolicy (`determineAssetFilePath` / `formatAssetFilePath`,
src/index.ts lines 130-148) and the rollup output templates -/

/-- `formatAssetFilePath(dir?, ext = "[extname]")`: build the hashed template,
prefixing `dir` when it is truthy (a non-empty string). -/
def formatAssetFilePath (dir : Option String := none) (ext : String := "[extname]") : String :=
  let name := "[name].[hash]" ++ ext
  match dir with
  | some d => if d = "" then name else d ++ "/" ++ name
  | none => name

/-- The regex test `/\.(gif|jpe?g|png|webp|avif|svg)$/.test(name)`. -/
def isImageName (name : String) : Bool :=
  [".gif", ".jpg", ".jpeg", ".png", ".webp", ".avif", ".svg"].any
    (fun suffix => name.endsWith suffix)

/-- `determineAssetFilePath({ name = "" })`: classify an asset by its name's
extension, first match wins.  `none` models an `undefined` name, which the
destructuring default turns into `""`. -/
def determineAssetFilePath (name : Option String) : String :=
  let n := name.getD ""
  if isImageName n then formatAssetFilePath (some "images")
  else if n.endsWith ".css" then formatAssetFilePath (some "css")
  else if n.endsWith ".woff" ∨ n.endsWith ".woff2" then formatAssetFilePath (some "fonts")
  else formatAssetFilePath none

/-- The fixed rollup output file-name templates for script entries and chunks
(src/index.ts lines 37-38). -/
structure RollupOutputNames where
  entryFileNames : String
  chunkFileNames : String
deriving DecidableEq, Repr

/-- The `rollupOptions.output` templates the config hook returns. -/
def rollupOutputNames : RollupOutputNames :=
  { entryFileNames := formatAssetFilePath (some "js") ".js"
    chunkFileNames := formatAssetFilePath (some "js") ".js" }

/-! ## Environment and source maps (src/index.ts lines 5 and 29) -/

/-- `LUCKY_ENV = process.env["LUCKY_ENV"] || "development"`: the environment
variable, defaulting (via JS falsiness) when unset or empty. -/
def luckyEnv (envVar : Option String) : String :=
  match envVar with
  | some s => if s = "" then "development" else s
  | none => "development"

/-- Substring search on character lists: does `pat` occur contiguously? -/
def hasSubstrAux (pat : List Char) : List Char → Bool
  | [] => pat.isEmpty
  | c :: rest => pat.isPrefixOf (c :: rest) || hasSubstrAux pat rest

/-- The regex test `/test|development/.test(s)`: does `s` contain `"test"` or
`"development"` as a substring? -/
def testOrDevelopment (s : String) : Bool :=
  hasSubstrAux "test".toList s.toList || hasSubstrAux "development".toList s.toList

/-- `build.sourcemap: !/test|development/.test(LUCKY_ENV)`. -/
def sourcemapSetting (envVar : Option String) : Bool :=
  ! testOrDevelopment (luckyEnv envVar)

/-! ## EntryScanner (`findEntryScripts`, src/index.ts lines 120-122) -/

/-- Filesystem errors surfaced by the plugin's directory operations. -/
inductive FsError where
  | directoryNotFoundError : FsError
deriving DecidableEq, Repr

/-- `findEntryScripts(root)`: list the direct children of `root`
(`readdirSync`, modelled by `readdir`, `none` meaning the directory does not
exist) and resolve each entry name against `root`. -/
def findEntryScripts (readdir : String → Option (List String)) (root : String) :
    Except FsError (List String) :=
  match readdir root with
  | none => Except.error FsError.directoryNotFoundError
  | some entries => Except.ok (entries.map (fun entry => pathResolve root entry))

/-! ## Build-start cleanup hook (`buildStart`, src/index.ts lines 46-55) -/

/-- The fixed list of output sub-directories the hook deletes. -/
def dirsToClean : List String := ["js", "css", "images", "fonts", ".vite"]

/-- `rmSync(path, { recursive: true, force: true })` on a directory state
modelled as the list of entry names present under the output directory.
Without `force`, removing an absent entry is an `ENOENT` error. -/
def rmSync (entries : List String) (dir : String) (force : Bool) :
    Except FsError (List String) :=
  if entries.contains dir then Except.ok (entries.filter (fun e => e ≠ dir))
  else if force then Except.ok entries
  else Except.error FsError.directoryNotFoundError

/-- The `buildStart` hook: for each directory of `dirsToClean`, if it exists
under the output directory (`existsSync`), remove it recursively with
`force: true`. -/
def buildStart (entries : List String) : Except FsError (List String) :=
  dirsToClean.foldlM
    (fun es dir => if es.contains dir then rmSync es dir true else Except.ok es)
    entries

/-! ## Plugin factory (src/index.ts lines 8-14) -/

/-- The plugin object returned by the factory: its name and the merged config
closed over by the `config` and `buildStart` hooks. -/
structure Plugin where
  name : String
  config : List (String × Json)

/-- The default export: load the shared config (failing hard on a missing
file or invalid JSON) and only then build the plugin hook object. -/
def vitePluginLucky (fs : String → Option String) (parse : String → Option Json)
    (configPath : String := "config/lucky_vite.json") : Except ConfigError Plugin :=
  (loadConfig fs parse configPath).map
    (fun cfg => { name := "vite-plugin-lucky", config := cfg })

/-! ## Concrete fixtures used to instantiate the theorems -/

/-- A filesystem holding one shared config file. -/
def fsSample : String → Option String := fun path =>
  if path = "config/lucky_vite.json" then some "port: 4000, outDir: dist" else none

/-- A parse oracle for the sample content: a config object overriding
`port` and `outDir`. -/
def parseSample : String → Option Json := fun text =>
  if text = "port: 4000, outDir: dist" then
    some (Json.obj [("port", Json.num 4000), ("outDir", Json.str "dist")])
  else none

/-- The parsed fields of the sample config. -/
def sampleFields : List (String × Json) :=
  [("port", Json.num 4000), ("outDir", Json.str "dist")]

/-- A filesystem with no files at all. -/
def fsEmpty : String → Option String := fun _ => none

/-- A filesystem whose config file holds text that is not valid JSON. -/
def fsGarbled : String → Option String := fun path =>
  if path = "config/lucky_vite.json" then some "such that no parse" else none

/-- A parse oracle that rejects everything (models `JSON.parse` throwing on
the garbled content). -/
def parseNothing : String → Option Json := fun _ => none

/-- A directory tree with one entry directory holding two entry scripts. -/
def readdirSample : String → Option (List String) := fun path =>
  if path = "/proj/src/js/entry" then some ["main.js", "admin.js"] else none

/-! ## Lemmas about the shallow merge -/

lemma lookup_cons_eq (k a : String) (b : Json) (l : List (String × Json)) :
    List.lookup k ((a, b) :: l) = if k = a then some b else List.lookup k l := by
  by_cases h : k = a
  · simp [List.lookup, h]
  · rw [List.lookup, beq_eq_false_iff_ne.mpr h]
    simp [h]

lemma lookup_setKey (t : List (String × Json)) (k : String) (v : Json) (k' : String) :
    (setKey t k v).lookup k' = if k' = k then some v else t.lookup k' := by
  induction t with
  | nil =>
      rw [show setKey [] k v = [(k, v)] from rfl, lookup_cons_eq]
  | cons hd tl ih =>
      obtain ⟨a, b⟩ := hd
      by_cases hak : a = k
      · subst hak
        by_cases h : k' = a <;> simp [setKey, lookup_cons_eq, h]
      · by_cases h : k' = a
        · have hkk : ¬ k' = k := fun hh => hak (h.symm.trans hh)
          simp [setKey, hak, lookup_cons_eq, h, hkk]
        · simp [setKey, hak, lookup_cons_eq, h, ih]

lemma lookup_eq_none_of_not_mem_keys (s : List (String × Json)) (k : String)
    (h : ¬ k ∈ s.map Prod.fst) : s.lookup k = none := by
  induction s with
  | nil => simp [List.lookup]
  | cons hd tl ih =>
      obtain ⟨a, b⟩ := hd
      simp only [List.map_cons, List.mem_cons, not_or] at h
      simp [lookup_cons_eq, h.1, ih h.2]

lemma lookup_objectAssign (t s : List (String × Json))
    (hs : (s.map Prod.fst).Nodup) (k : String) :
    (objectAssign t s).lookup k = (s.lookup k).or (t.lookup k) := by
  induction s generalizing t with
  | nil => simp [objectAssign, List.lookup]
  | cons hd rest ih =>
      obtain ⟨k0, v0⟩ := hd
      simp only [List.map_cons, List.nodup_cons] at hs
      rw [objectAssign, ih _ hs.2, lookup_setKey, lookup_cons_eq]
      by_cases h : k = k0
      · subst h
        rw [lookup_eq_none_of_not_mem_keys rest k hs.1]
        simp
      · simp [h]

lemma merged_lookup_key (fields : List (String × Json))
    (hnodup : (fields.map Prod.fst).Nodup) (k : String) (d : Json)
    (hd : defaultsJson.lookup k = some d) :
    (objectAssign defaultsJson fields).lookup k = some ((fields.lookup k).getD d) := by
  rw [lookup_objectAssign _ _ hnodup, hd]
  cases hfind : fields.lookup k <;> simp [hfind]

/-! ## Claim theorems -/

/-- C1: shallow-merge law of ConfigLoader — for every valid JSON config
object (a parsed object, whose keys are distinct), the merged result has the
fixed default value for each of the six keys absent from the parsed JSON and
exactly the parsed value (a full, one-level replacement) when the key is
present. -/
theorem claim1_configloader_shallow_merge
    (fs : String → Option String) (parse : String → Option Json)
    (configPath text : String) (fields : List (String × Json))
    (hfs : fs configPath = some text)
    (hparse : parse text = some (Json.obj fields))
    (hnodup : (fields.map Prod.fst).Nodup) :
    ∃ merged, loadConfig fs parse configPath = Except.ok merged ∧
      ∀ p ∈ [("outDir", Json.str "public"), ("entry", Json.str "entry"),
             ("host", Json.str "127.0.0.1"), ("port", Json.num 3010),
             ("root", Json.str "src/js"),
             ("aliases", Json.arr [Json.str "js", Json.str "css",
                                   Json.str "images", Json.str "fonts"])],
        merged.lookup p.1 = some ((fields.lookup p.1).getD p.2) := by
  refine ⟨objectAssign defaultsJson fields, ?_, ?_⟩
  · simp [loadConfig, hfs, hparse, ownEnumerableFields]
  · intro p hp
    fin_cases hp <;> exact merged_lookup_key fields hnodup _ _ rfl

/-- Witness for C1 at a concrete config overriding `port` and `outDir`. -/
theorem claim1_configloader_shallow_merge_witness :
    ∃ merged,
      loadConfig fsSample parseSample "config/lucky_vite.json" = Except.ok merged ∧
      ∀ p ∈ [("outDir", Json.str "public"), ("entry", Json.str "entry"),
             ("host", Json.str "127.0.0.1"), ("port", Json.num 3010),
             ("root", Json.str "src/js"),
             ("aliases", Json.arr [Json.str "js", Json.str "css",
                                   Json.str "images", Json.str "fonts"])],
        merged.lookup p.1 = some ((sampleFields.lookup p.1).getD p.2) :=
  claim1_configloader_shallow_merge fsSample parseSample
    "config/lucky_vite.json" "port: 4000, outDir: dist" sampleFields
    rfl rfl (by decide)

/-- C2: a missing config file fails plugin initialization with
`FileNotFoundError`, and unparseable content fails it with `ParseError`, in
both cases before any hook object is produced (the factory returns an error,
not a `Plugin`). -/
theorem claim2_config_failure_aborts_init
    (fs : String → Option String) (parse : String → Option Json)
    (configPath : String) :
    (fs configPath = none →
      vitePluginLucky fs parse configPath = Except.error ConfigError.fileNotFoundError) ∧
    (∀ text, fs configPath = some text → parse text = none →
      vitePluginLucky fs parse configPath = Except.error ConfigError.parseError) := by
  constructor
  · intro h
    simp [vitePluginLucky, loadConfig, h, Except.map]
  · intro text hfs hparse
    simp [vitePluginLucky, loadConfig, hfs, hparse, Except.map]

/-- Witness for C2: a filesystem with no config file, and one whose config
file does not parse. -/
theorem claim2_config_failure_aborts_init_witness :
    vitePluginLucky fsEmpty parseSample "config/lucky_vite.json" =
      Except.error ConfigError.fileNotFoundError ∧
    vitePluginLucky fsGarbled parseNothing "config/lucky_vite.json" =
      Except.error ConfigError.parseError :=
  ⟨(claim2_config_failure_aborts_init fsEmpty parseSample "config/lucky_vite.json").1 rfl,
   (claim2_config_failure_aborts_init fsGarbled parseNothing "config/lucky_vite.json").2
     "such that no parse" rfl rfl⟩

/-- C3: AssetPathPolicy — every declared asset name is classified by
first-match-wins extension rules into `images/`, `css/`, `fonts/` or no
sub-directory, and script entries and chunks always use the fixed
`js/[name].[hash].js` template. -/
theorem claim3_asset_path_policy :
    (∀ name : Option String,
      determineAssetFilePath name =
        (let n := name.getD ""
         if n.endsWith ".gif" ∨ n.endsWith ".jpg" ∨ n.endsWith ".jpeg" ∨
            n.endsWith ".png" ∨ n.endsWith ".webp" ∨ n.endsWith ".avif" ∨
            n.endsWith ".svg" then "images/[name].[hash][extname]"
         else if n.endsWith ".css" then "css/[name].[hash][extname]"
         else if n.endsWith ".woff" ∨ n.endsWith ".woff2" then
           "fonts/[name].[hash][extname]"
         else "[name].[hash][extname]")) ∧
    rollupOutputNames.entryFileNames = "js/[name].[hash].js" ∧
    rollupOutputNames.chunkFileNames = "js/[name].[hash].js" := by
  refine ⟨?_, rfl, rfl⟩
  intro name
  simp only [determineAssetFilePath, isImageName, List.any_cons, List.any_nil,
             Bool.or_false, Bool.or_eq_true,
             show formatAssetFilePath (some "images") "[extname]" =
               "images/[name].[hash][extname]" from rfl,
             show formatAssetFilePath (some "css") "[extname]" =
               "css/[name].[hash][extname]" from rfl,
             show formatAssetFilePath (some "fonts") "[extname]" =
               "fonts/[name].[hash][extname]" from rfl,
             show formatAssetFilePath none "[extname]" =
               "[name].[hash][extname]" from rfl]

/-- C4 (counterexample): with origin supplied as the empty string (a falsy
value), `configureServer` does not return it unchanged but synthesizes the
origin from host and port, so a supplied origin does not always take
precedence. -/
theorem claim4_counterexample :
    (configureServer { https := some false, host := some (HostVal.str "localhost"),
                       port := some (PortVal.num 3010), origin := some "" }).map
        ServerConfig.origin = some "http://localhost:3010" ∧
    "http://localhost:3010" ≠ "" := by
  refine ⟨by decide, by decide⟩

/-- C4 (amended): when origin is absent **or empty** the returned origin is
the synthesized `http(s)://host:port` string; a supplied non-empty origin is
returned unchanged and takes precedence entirely; the returned hostname, port
and secure flag are parsed from the returned origin; and the concrete
instance `host="localhost", port=3010, https=false` yields origin
`http://localhost:3010`, hostname `localhost`, port `"3010"`, secure false. -/
theorem claim4_server_origin_derivation (c : ServerInput) :
    (∀ uri, (c.origin = none ∨ c.origin = some "") →
      parseURL (synthOrigin (c.https.getD false)
        (hostString (resolveHost c.host)) (portString c.port)) = some uri →
      configureServer c = some
        { origin := synthOrigin (c.https.getD false)
            (hostString (resolveHost c.host)) (portString c.port)
          host := uri.hostname
          port := uri.port
          https := uri.protocol = "https:" }) ∧
    (∀ s uri, c.origin = some s → s ≠ "" → parseURL s = some uri →
      configureServer c = some
        { origin := s
          host := uri.hostname
          port := uri.port
          https := uri.protocol = "https:" }) ∧
    configureServer { https := some false, host := some (HostVal.str "localhost"),
                      port := some (PortVal.num 3010), origin := none } =
      some { origin := "http://localhost:3010", host := "localhost",
             port := "3010", https := false } := by
  refine ⟨?_, ?_, by decide⟩
  · intro uri hor hparse
    rcases hor with h | h <;> simp [configureServer, h, hparse]
  · intro s uri hor hne hparse
    simp [configureServer, hor, hne, hparse]

/-- Witness for C4 (amended): a synthesized origin for `localhost:3010`, and
a supplied non-empty origin `https://example.com:8443` taking precedence. -/
theorem claim4_server_origin_derivation_witness :
    configureServer { https := some false, host := some (HostVal.str "localhost"),
                      port := some (PortVal.num 3010), origin := none } =
      some { origin := "http://localhost:3010", host := "localhost",
             port := "3010", https := false } ∧
    configureServer { https := some false, host := some (HostVal.str "localhost"),
                      port := some (PortVal.num 3010),
                      origin := some "https://example.com:8443" } =
      some { origin := "https://example.com:8443", host := "example.com",
             port := "8443", https := true } := by
  constructor
  · have h := (claim4_server_origin_derivation
      { https := some false, host := some (HostVal.str "localhost"),
        port := some (PortVal.num 3010), origin := none }).1
      ⟨"http:", "localhost", "3010"⟩ (Or.inl rfl) (by decide)
    simpa using h
  · have h := (claim4_server_origin_derivation
      { https := some false, host := some (HostVal.str "localhost"),
        port := some (PortVal.num 3010), origin := some "https://example.com:8443" }).2.1
      "https://example.com:8443" ⟨"https:", "example.com", "8443"⟩
      rfl (by decide) (by decide)
    simpa using h

/-- C8: a boolean `true` host is normalized to the bind-all address
`0.0.0.0` before the origin URI is synthesized, so the synthesized origin is
`http(s)://0.0.0.0:<port>`. -/
theorem claim8_boolean_true_host (https : Option Bool) (port : Option PortVal) :
    resolveHost (some (HostVal.bool true)) = some "0.0.0.0" ∧
    (∀ uri,
      parseURL (synthOrigin (https.getD false) "0.0.0.0" (portString port)) = some uri →
      configureServer { https := https, host := some (HostVal.bool true),
                        port := port, origin := none } =
        some { origin := synthOrigin (https.getD false) "0.0.0.0" (portString port)
               host := uri.hostname
               port := uri.port
               https := uri.protocol = "https:" }) := by
  refine ⟨rfl, ?_⟩
  intro uri hparse
  simp [configureServer, resolveHost, hostString, hparse]

/-- Witness for C8 at `https` absent and `port = 3010`. -/
theorem claim8_boolean_true_host_witness :
    configureServer { https := none, host := some (HostVal.bool true),
                      port := some (PortVal.num 3010), origin := none } =
      some { origin := synthOrigin false "0.0.0.0" "3010", host := "0.0.0.0",
             port := "3010", https := ("http:" : String) = "https:" } :=
  (claim8_boolean_true_host none (some (PortVal.num 3010))).2
    ⟨"http:", "0.0.0.0", "3010"⟩ (by decide)

/-- C10: the source tests `typeof host === "boolean"`, not the value `true`,
so a boolean `false` host is also replaced by `0.0.0.0`; with `https=false`,
`host=false`, `port=3010` the synthesized origin is `http://0.0.0.0:3010`. -/
theorem claim10_boolean_false_host :
    resolveHost (some (HostVal.bool false)) = some "0.0.0.0" ∧
    (∀ b : Bool, resolveHost (some (HostVal.bool b)) = some "0.0.0.0") ∧
    configureServer { https := some false, host := some (HostVal.bool false),
                      port := some (PortVal.num 3010), origin := none } =
      some { origin := "http://0.0.0.0:3010", host := "0.0.0.0",
             port := "3010", https := false } :=
  ⟨rfl, fun b => by cases b <;> rfl, by decide⟩

/-! ## Lemmas about the build-start cleanup -/

lemma cleanStep_eq_filter (es : List String) (d : String) :
    (if es.contains d then rmSync es d true else Except.ok es) =
      Except.ok (es.filter (fun e => e ≠ d)) := by
  by_cases h : es.contains d
  · rw [if_pos h, rmSync, if_pos h]
  · have hmem : ¬ d ∈ es := fun hm => h (List.elem_iff.mpr hm)
    have hfil : es.filter (fun e => e ≠ d) = es :=
      List.filter_eq_self.mpr (fun a ha => by
        simp only [ne_eq, decide_eq_true_eq]
        exact fun had => hmem (had ▸ ha))
    rw [if_neg h, hfil]

lemma cleanFold_eq_filter (ds : List String) (entries : List String) :
    (ds.foldlM
        (fun es dir => if es.contains dir then rmSync es dir true else Except.ok es)
        entries) =
      Except.ok (entries.filter (fun e => ! ds.contains e)) := by
  induction ds generalizing entries with
  | nil =>
      simp only [List.foldlM_nil, List.contains_nil, Bool.not_false, List.filter_true]
      rfl
  | cons d rest ih =>
      rw [List.foldlM_cons, cleanStep_eq_filter]
      show (rest.foldlM _ (entries.filter (fun e => e ≠ d))) = _
      rw [ih, List.filter_filter]
      congr 1
      apply List.filter_congr
      intro a _
      by_cases had : a = d
      · simp [had, List.contains, List.elem_cons]
      · by_cases hr : rest.contains a <;>
          simp [had, hr, List.contains, List.elem_cons, beq_eq_false_iff_ne.mpr had]

/-- C5: the build-start cleanup removes exactly the entries `js`, `css`,
`images`, `fonts` and `.vite` from the output directory, leaves every other
entry unchanged, never errors (an absent directory is skipped, and `rmSync`
with `force` is a no-op on an absent path), and is idempotent: a second run
on the resulting state succeeds and changes nothing. -/
theorem claim5_cleanup_idempotent (entries : List String) :
    buildStart entries = Except.ok (entries.filter (fun e => ! dirsToClean.contains e)) ∧
    (∀ r, buildStart entries = Except.ok r → buildStart r = Except.ok r) ∧
    (∀ dir, ¬ dir ∈ entries → rmSync entries dir true = Except.ok entries) := by
  refine ⟨cleanFold_eq_filter dirsToClean entries, ?_, ?_⟩
  · intro r hr
    have h1 : Except.ok (ε := FsError) r =
        Except.ok (entries.filter (fun e => ! dirsToClean.contains e)) :=
      hr.symm.trans (cleanFold_eq_filter dirsToClean entries)
    have hr' : r = entries.filter (fun e => ! dirsToClean.contains e) :=
      (Except.ok.injEq _ _).mp h1
    subst hr'
    have hff :
        List.filter (fun e => ! dirsToClean.contains e)
          (List.filter (fun e => ! dirsToClean.contains e) entries) =
        List.filter (fun e => ! dirsToClean.contains e) entries := by
      rw [List.filter_filter]
      exact List.filter_congr (fun a _ => Bool.and_self _)
    exact (cleanFold_eq_filter dirsToClean _).trans (congrArg Except.ok hff)
  · intro dir hmem
    rw [rmSync, if_neg (fun h => hmem (List.elem_iff.mp h)), if_pos rfl]

/-- Witness for C5 on an output directory holding `js`, a foreign entry
`assets`, and `.vite`. -/
theorem claim5_cleanup_idempotent_witness :
    buildStart ["js", "assets", ".vite"] = Except.ok ["assets"] ∧
    buildStart ["assets"] = Except.ok ["assets"] ∧
    rmSync ["assets"] "js" true = Except.ok ["assets"] := by
  refine ⟨?_, ?_, ?_⟩
  · have h := (claim5_cleanup_idempotent ["js", "assets", ".vite"]).1
    simpa using h
  · have h := (claim5_cleanup_idempotent ["assets"]).1
    simpa using h
  · exact (claim5_cleanup_idempotent ["assets"]).2.2 "js" (by decide)

/-- C6: AliasResolver returns exactly one entry per input name, in input
order, mapping `@<name>` to `<cwd>/src/<name>`; an empty or absent input
yields the empty mapping. -/
theorem claim6_alias_resolver (luckyRoot : String) (dirs : List String) :
    (resolveAliases luckyRoot (some dirs)).length = dirs.length ∧
    (∀ (i : Nat) (a : String), dirs[i]? = some a →
      (resolveAliases luckyRoot (some dirs))[i]? =
        some (AliasEntry.mk ("@" ++ a) (luckyRoot ++ "/src/" ++ a))) ∧
    resolveAliases luckyRoot none = [] ∧
    resolveAliases luckyRoot (some []) = [] := by
  refine ⟨by simp [resolveAliases], ?_, rfl, rfl⟩
  intro i a hia
  simp [resolveAliases, List.getElem?_map, hia, pathResolve]
  rw [String.append_assoc, String.append_assoc]
  rfl

/-- Witness for C6 at input `["js", "css"]`, second element. -/
theorem claim6_alias_resolver_witness :
    (resolveAliases "/app" (some ["js", "css"])).length = 2 ∧
    (resolveAliases "/app" (some ["js", "css"]))[1]? =
      some (AliasEntry.mk "@css" "/app/src/css") := by
  constructor
  · exact (claim6_alias_resolver "/app" ["js", "css"]).1
  · have h := (claim6_alias_resolver "/app" ["js", "css"]).2.1 1 "css" rfl
    simpa using h

/-! ## Lemmas about the substring regex -/

lemma hasSubstrAux_iff (pat s : List Char) :
    hasSubstrAux pat s = true ↔ pat <:+: s := by
  induction s with
  | nil =>
      simp [hasSubstrAux, List.infix_nil, List.isEmpty_iff]
  | cons c rest ih =>
      simp [hasSubstrAux, Bool.or_eq_true, List.isPrefixOf_iff_prefix, ih,
            List.infix_cons_iff]

/-- C7 (counterexample): with `LUCKY_ENV="latest"` the active environment is
neither `"development"` nor `"test"`, yet source maps are disabled, because
the source tests regex containment (`/test|development/`), not equality, and
`"latest"` contains `"test"`. -/
theorem claim7_counterexample :
    ¬ (sourcemapSetting (some "latest") = true ↔
        (luckyEnv (some "latest") ≠ "development" ∧ luckyEnv (some "latest") ≠ "test")) ∧
    luckyEnv (some "latest") ≠ "development" ∧ luckyEnv (some "latest") ≠ "test" ∧
    sourcemapSetting (some "latest") = false := by
  refine ⟨?_, by decide, by decide, by decide⟩
  intro h
  have := h.mpr ⟨by decide, by decide⟩
  exact absurd this (by decide)

/-- C7 (amended): for every value of `LUCKY_ENV` (defaulting to
`"development"` when unset or empty), source maps are enabled iff the active
environment string contains neither `"test"` nor `"development"` as a
substring. -/
theorem claim7_sourcemap_policy (envVar : Option String) :
    sourcemapSetting envVar = true ↔
      ¬ ("test".toList <:+: (luckyEnv envVar).toList) ∧
      ¬ ("development".toList <:+: (luckyEnv envVar).toList) := by
  rw [sourcemapSetting, testOrDevelopment]
  rw [Bool.not_eq_true']
  rw [Bool.or_eq_false_iff]
  constructor
  · intro h
    exact ⟨fun hc => by
        have := (hasSubstrAux_iff "test".toList (luckyEnv envVar).toList).mpr hc
        rw [this] at h
        exact Bool.noConfusion h.1,
      fun hc => by
        have := (hasSubstrAux_iff "development".toList (luckyEnv envVar).toList).mpr hc
        rw [this] at h
        exact Bool.noConfusion h.2⟩
  · intro h
    constructor
    · cases hb : hasSubstrAux "test".toList (luckyEnv envVar).toList
      · rfl
      · exact absurd ((hasSubstrAux_iff _ _).mp hb) h.1
    · cases hb : hasSubstrAux "development".toList (luckyEnv envVar).toList
      · rfl
      · exact absurd ((hasSubstrAux_iff _ _).mp hb) h.2

/-- C9: EntryScanner returns the absolute paths of exactly the direct
children of the root, in directory-listing order and without filtering (each
resulting path ends with its entry's name), and fails with
a `DirectoryNotFoundError` when the root does not exist. -/
theorem claim9_entry_scanner (readdir : String → Option (List String)) (root : String) :
    (readdir root = none →
      findEntryScripts readdir root = Except.error FsError.directoryNotFoundError) ∧
    (∀ es, readdir root = some es →
      findEntryScripts readdir root =
        Except.ok (es.map (fun entry => root ++ "/" ++ entry)) ∧
      ∀ entry ∈ es, entry.toList <:+ (root ++ "/" ++ entry).toList) := by
  constructor
  · intro h
    simp [findEntryScripts, h]
  · intro es hes
    refine ⟨by simp [findEntryScripts, hes, pathResolve], ?_⟩
    intro entry _
    exact ⟨(root ++ "/").toList, by simp [String.toList, String.data_append]⟩

/-- Witness for C9: a root with entries `main.js` and `admin.js`, and a
missing root. -/
theorem claim9_entry_scanner_witness :
    findEntryScripts readdirSample "/proj/src/js/entry" =
      Except.ok ["/proj/src/js/entry/main.js", "/proj/src/js/entry/admin.js"] ∧
    findEntryScripts readdirSample "/proj/missing" =
      Except.error FsError.directoryNotFoundError := by
  constructor
  · have h := ((claim9_entry_scanner readdirSample "/proj/src/js/entry").2
      ["main.js", "admin.js"] rfl).1
    simpa using h
  · exact (claim9_entry_scanner readdirSample "/proj/missing").1 rfl

end VitePluginLucky
